import Mathlib

/-!
Verification of the hook event logger (src/hooks/logger.py) against its
natural-language specification.

Shallow embedding conventions:
  * JSON values decoded by json.load, and the Python values the program
    builds from them, are modelled by `JValue`.  Python None and JSON null
    are both `JValue.null` (json.load maps null to None, and dict.get of a
    missing key yields None, so the two are indistinguishable to this
    program).
  * Python dicts are association lists in insertion order with unique keys:
    assignment to an existing key overwrites in place, assignment to a new
    key appends at the end, exactly as Python dicts behave.
  * The `registered_at` field is an isoformat UTC timestamp in the source;
    isoformat strings of increasing instants compare lexicographically in
    chronological order, so it is modelled as a `Nat` clock value passed in
    explicitly.  Python sorted is a stable sort; a stable sort is uniquely
    determined by the comparison key and the input order, so the stable
    insertion sort `sortByTime` below computes the same list.
  * The store state file begins empty and is only ever written by this
    program, so its records always carry the four fields register_agent and
    set_pending_task write; the store is therefore a map from `String` keys
    to `AgentRecord`.
-/

namespace HookLogger

/-- A JSON value as decoded by json.load (null doubles as Python None). -/
inductive JValue where
  | null
  | bool (b : Bool)
  | num (n : Int)
  | str (s : String)
  | arr (xs : List JValue)
  | obj (kvs : List (String × JValue))

/-- One record of the correlation store, as written by register_agent and
set_pending_task: the three metadata fields plus the insertion timestamp. -/
structure AgentRecord where
  subagent_type : JValue
  model : JValue
  description : JValue
  registered_at : Nat

/-- The parsed contents of agent_state.json: a Python dict in insertion
order with unique keys. -/
abbrev StoreState := List (String × AgentRecord)

/-- Python dict lookup (keys are unique, so first match is the match). -/
def dictGet {β : Type} : List (String × β) → String → Option β
  | [], _ => none
  | (k', v) :: rest, k => if k' = k then some v else dictGet rest k

/-- Python dict assignment: overwrite in place if the key exists, else
append at the end (dicts preserve insertion order). -/
def dictSet {β : Type} : List (String × β) → String → β → List (String × β)
  | [], k, v => [(k, v)]
  | (k', v') :: rest, k, v =>
      if k' = k then (k, v) :: rest else (k', v') :: dictSet rest k v

/-- Python dict.pop: drop the binding of the key (unique, so the first). -/
def dictRemove {β : Type} : List (String × β) → String → List (String × β)
  | [], _ => []
  | (k', v') :: rest, k => if k' = k then rest else (k', v') :: dictRemove rest k

/-- The synthesized pending key for a session: the f-string
f"pending_{session_id}" of set_pending_task and get_and_clear_pending_task. -/
def pendingKey (session_id : String) : String := "pending_" ++ session_id

/-- Stable insertion into a list sorted by registered_at ascending: a later
element goes before the first element it does not exceed, which is exactly
the placement a stable sort gives an element inserted from the left. -/
def insertByTime (x : String × AgentRecord) :
    List (String × AgentRecord) → List (String × AgentRecord)
  | [] => [x]
  | y :: ys =>
      if x.2.registered_at ≤ y.2.registered_at then x :: y :: ys
      else y :: insertByTime x ys

/-- Stable sort by registered_at ascending.  Python sorted(state.items(),
key=...) is stable, and a stable sort is determined by key and input order,
so this insertion sort computes the same list as the source line. -/
def sortByTime : List (String × AgentRecord) → List (String × AgentRecord)
  | [] => []
  | x :: xs => insertByTime x (sortByTime xs)

/-- Lines 97-100 of register_agent: keep only the last 100 agents.  Sorted
ascending by registered_at, the slice [-100:] keeps the final 100, that is
drops the (len - 100) oldest. -/
def evictOldest (l : StoreState) : StoreState :=
  if 100 < l.length then (sortByTime l).drop (l.length - 100) else l

/-- AgentStateTracker.register_agent (logger.py lines 86-101): guard on a
falsy agent_id, overwrite the record under agent_id, then trim to 100. -/
def register_agent (st : StoreState) (agent_id : String)
    (subagent_type mdl desc : JValue) (now : Nat) : StoreState :=
  if agent_id = "" then st
  else evictOldest (dictSet st agent_id ⟨subagent_type, mdl, desc, now⟩)

/-- AgentStateTracker.set_pending_task (lines 103-112): overwrite the record
under the synthesized pending key.  No guard and no trimming happen here. -/
def set_pending_task (st : StoreState) (session_id : String)
    (subagent_type mdl desc : JValue) (now : Nat) : StoreState :=
  dictSet st (pendingKey session_id) ⟨subagent_type, mdl, desc, now⟩

/-- AgentStateTracker.get_and_clear_pending_task (lines 114-121): pop the
pending key; a record popped is truthy (a four-field dict), so the state
without it is written back; on a miss pop yields {} and nothing is written.
Returns the popped record (if any) and the resulting store contents. -/
def get_and_clear_pending_task (st : StoreState) (session_id : String) :
    Option AgentRecord × StoreState :=
  match dictGet st (pendingKey session_id) with
  | some rec => (some rec, dictRemove st (pendingKey session_id))
  | none => (none, st)

/-- AgentStateTracker.lookup_agent (lines 123-128): falsy guard, then a
non-destructive read. -/
def lookup_agent (st : StoreState) (agent_id : String) : Option AgentRecord :=
  if agent_id = "" then none else dictGet st agent_id

/-- One store operation, for stating properties of operation sequences. -/
inductive StoreOp where
  | register (agent_id : String) (subagent_type mdl desc : JValue)
  | setPending (session_id : String) (subagent_type mdl desc : JValue)
  | takePending (session_id : String)
  | lookup (agent_id : String)

/-- Apply one store operation at clock value t (lookup reads only). -/
def applyOp (st : StoreState) (t : Nat) : StoreOp → StoreState
  | .register k ty mdl d => register_agent st k ty mdl d t
  | .setPending s ty mdl d => set_pending_task st s ty mdl d t
  | .takePending s => (get_and_clear_pending_task st s).2
  | .lookup _ => st

/-- Run a sequence of store operations from a given store, the clock
ticking once per operation (timestamps are monotonically increasing). -/
def runOpsFrom (st : StoreState) (t : Nat) : List StoreOp → StoreState
  | [] => st
  | op :: rest => runOpsFrom (applyOp st t op) (t + 1) rest

/-- Run a sequence of store operations from the empty store. -/
def runOps (ops : List StoreOp) : StoreState := runOpsFrom [] 0 ops

/-- Whether the first list starts the second (character lists). -/
def listIsStart : List Char → List Char → Bool
  | [], _ => true
  | _ :: _, [] => false
  | c :: cs, d :: ds => c == d && listIsStart cs ds

/-- Whether a key begins with the reserved marker of synthesized pending
keys, the literal text pending_ . -/
def strHasPendingMarker (s : String) : Bool :=
  listIsStart "pending_".data s.data

/-- A concrete store record used by closed witness statements. -/
def sampleRecord : AgentRecord :=
  ⟨JValue.str "code-reviewer", JValue.null, JValue.str "review the diff", 3⟩

/-!
### Interleaving model for get_and_clear_pending_task

The source takes no lock across the whole operation: _read_state opens the
file and locks it (shared) for the read alone, and _write_state opens the
file again and locks it (exclusive) for the write alone.  A process running
get_and_clear_pending_task therefore touches the shared file in two
separate atomic transactions, with an unguarded gap between them.  The
model below grants each transaction full atomicity (more than the source
guarantees, since open(file, w) truncates before flock) and schedules two
concurrent callers of get_and_clear_pending_task for the same session by an
explicit interleaving.
-/

/-- Program counter of one process running get_and_clear_pending_task:
before the locked read, between read and write holding the parsed state, or
finished with its return value. -/
inductive TakePC where
  | start
  | readDone (loc : StoreState)
  | finished (ret : Option AgentRecord)

/-- The shared file plus both processes. -/
structure TakeSys where
  file : StoreState
  pc1 : TakePC
  pc2 : TakePC

/-- One file transaction of get_and_clear_pending_task: the locked read
(_read_state), or the in-memory pop followed by the locked write-back
(_write_state) — on a miss pop yields {} and nothing is written. -/
def takeStep (session : String) (file : StoreState) : TakePC → StoreState × TakePC
  | .start => (file, .readDone file)
  | .readDone loc =>
      match dictGet loc (pendingKey session) with
      | some r => (dictRemove loc (pendingKey session), .finished (some r))
      | none => (file, .finished none)
  | .finished r => (file, .finished r)

/-- Let the chosen process (true = first) perform its next transaction. -/
def schedStep (session : String) (sys : TakeSys) (who : Bool) : TakeSys :=
  if who then
    let s := takeStep session sys.file sys.pc1
    ⟨s.1, s.2, sys.pc2⟩
  else
    let s := takeStep session sys.file sys.pc2
    ⟨s.1, sys.pc1, s.2⟩

/-- Run an interleaving of the two processes. -/
def runSched (session : String) (sched : List Bool) (sys : TakeSys) : TakeSys :=
  sched.foldl (schedStep session) sys

/-- Whether a process has finished holding the pending record. -/
def consumed : TakePC → Bool
  | .finished (some _) => true
  | _ => false

/-!
### Event Recorder: Python value helpers

These mirror the Python expressions of main (logger.py lines 131-329).
Operations Python would abort with an exception (attribute access on a
non-dict, iterating a non-iterable, joining non-strings, an unhashable
dict key) return `Except.error`, which the top level turns into a raised
exception.
-/

/-- Python dict.get(k, default): the default only applies when the key is
absent; an explicit JSON null yields None (JValue.null). -/
def pyGet (o : List (String × JValue)) (k : String) (d : JValue) : JValue :=
  match dictGet o k with
  | some v => v
  | none => d

/-- Python truthiness: None, False, 0, the empty string, list and dict are
falsy; everything else is truthy. -/
def jTruthy : JValue → Bool
  | .null => false
  | .bool b => b
  | .num n => decide (n ≠ 0)
  | .str s => decide (s ≠ "")
  | .arr xs => !xs.isEmpty
  | .obj kvs => !kvs.isEmpty

/-- Python == against a string literal: only equal when the value is that
string (numbers, lists, None and so on compare unequal to str). -/
def jEqStr (v : JValue) (s : String) : Bool :=
  match v with
  | .str t => t == s
  | _ => false

/-- Python `a or b`. -/
def pyOr (a b : JValue) : JValue := if jTruthy a then a else b

/-- Python str() as used by the f-strings f"pending_{session_id}" and
f"hooks-{session_id}.jsonl".  Scalars render exactly as Python renders
them; the container renderings are abstracted (every claim exercises
string or absent session ids only, and no claim depends on how Python
renders a list or dict inside an f-string). -/
def pyStr : JValue → String
  | .str s => s
  | .null => "None"
  | .bool b => cond b "True" "False"
  | .num n => toString n
  | .arr _ => "<list>"
  | .obj _ => "<dict>"

/-- Attribute access .get(...) needs a dict; on any other value Python
raises AttributeError. -/
def asObj : JValue → Except Unit (List (String × JValue))
  | .obj kvs => .ok kvs
  | _ => .error ()

/-- Python len(...) of the values this program measures; len of a number
or boolean raises TypeError. -/
def pyLen : JValue → Except Unit Int
  | .str s => .ok s.length
  | .arr xs => .ok xs.length
  | .obj kvs => .ok kvs.length
  | _ => .error ()

/-- One content block: a dict block tagged type == "text" contributes its
text value (defaulted to ""); every other block is skipped (lines 30-32
and 49-51). -/
def blockText (b : JValue) : Option JValue :=
  match b with
  | .obj kvs =>
      if jEqStr (pyGet kvs "type" .null) "text" then some (pyGet kvs "text" (.str ""))
      else none
  | _ => none

/-- Iterating a content value with `for block in content`: a list yields
its blocks; a string yields its characters and a dict its keys, none of
which are dict blocks, so they contribute no texts; None, numbers and
booleans are not iterable and raise TypeError. -/
def contentBlocks : JValue → Except Unit (List JValue)
  | .arr xs => .ok xs
  | .str _ => .ok []
  | .obj _ => .ok []
  | _ => .error ()

/-- What "\n".join(texts) accepts: every element must be a string, else
Python raises TypeError. -/
def asStrList : List JValue → Except Unit (List String)
  | [] => .ok []
  | .str s :: rest => (asStrList rest).map (s :: ·)
  | _ :: _ => .error ()

/-- extract_task_response (lines 42-52), applied to the fields of a truthy
dict tool_response (the caller guards truthiness at line 243 and field
access forces the dict shape). -/
def extract_task_response (tr : List (String × JValue)) : Except Unit String := do
  let blocks ← contentBlocks (pyGet tr "content" (.arr []))
  let texts := blocks.filterMap blockText
  if texts.isEmpty then
    .ok ""
  else do
    let ss ← asStrList texts
    .ok (String.intercalate "\n" ss)

/-- The parsed lines of one transcript file: none stands for a line
json.loads rejects (the except JSONDecodeError branch skips it). -/
abbrev TranscriptLines := List (Option JValue)

/-- The line loop of get_last_assistant_message (lines 20-38).  A line
whose processing raises anything but JSONDecodeError (a non-dict entry or
message, a non-iterable content, a non-string text) aborts the loop via
the outer `except Exception`, returning the text accumulated so far. -/
def lastAssistantGo (acc : String) : TranscriptLines → String
  | [] => acc
  | none :: rest => lastAssistantGo acc rest
  | some e :: rest =>
      match e with
      | .obj kvs =>
          if jEqStr (pyGet kvs "type" .null) "assistant" then
            match pyGet kvs "message" (.obj []) with
            | .obj mk =>
                match contentBlocks (pyGet mk "content" (.arr [])) with
                | .ok blocks =>
                    let texts := blocks.filterMap blockText
                    if texts.isEmpty then lastAssistantGo acc rest
                    else
                      match asStrList texts with
                      | .ok ss => lastAssistantGo (String.intercalate "\n" ss) rest
                      | .error _ => acc
                | .error _ => acc
            | _ => acc
          else lastAssistantGo acc rest
      | _ => acc

/-- get_last_assistant_message (lines 15-39): a falsy path yields "", an
absent or unreadable file yields "" (the outer try swallows the open
failure), otherwise the line loop runs.  os.path.exists on a non-path
value raises TypeError. -/
def get_last_assistant_message (transcripts : List (String × TranscriptLines))
    (path : JValue) : Except Unit String :=
  if jTruthy path = false then .ok ""
  else
    match path with
    | .str p =>
        match dictGet transcripts p with
        | some lines => .ok (lastAssistantGo "" lines)
        | none => .ok ""
    | _ => .error ()

/-- tracker.lookup_agent with the raw Python value for agent_id: falsy ids
return {}; a string id reads the store; a hashable non-string id misses a
string-keyed dict; an unhashable id (list or dict) raises TypeError. -/
def lookupAgentJ (st : StoreState) (agent_id : JValue) :
    Except Unit (Option AgentRecord) :=
  if jTruthy agent_id = false then .ok none
  else
    match agent_id with
    | .str s => .ok (lookup_agent st s)
    | .arr _ => .error ()
    | .obj _ => .error ()
    | _ => .ok none

/-- tracker.register_agent with the raw Python value for agent_id: falsy
ids make it a no-op; a truthy scalar id becomes the string key json.dump
writes for it; an unhashable id raises TypeError at state[agent_id]. -/
def registerAgentJ (st : StoreState) (agent_id : JValue)
    (ty mdl desc : JValue) (now : Nat) : Except Unit StoreState :=
  if jTruthy agent_id = false then .ok st
  else
    match agent_id with
    | .str s => .ok (register_agent st s ty mdl desc now)
    | .num n => .ok (register_agent st (toString n) ty mdl desc now)
    | .bool b => .ok (register_agent st (cond b "true" "false") ty mdl desc now)
    | _ => .error ()

/-!
### Event Recorder: log entry construction

The source builds log_entry as a dict literal (lines 156-165) and then
performs a sequence of log_entry[key] = value assignments whose keys are
all literals distinct from ts, session_id and event.  The model computes
the assignment sequence of each branch in program order and applies it
with dictSet, which is exactly what the assignments do.
-/

/-- One event record under construction (a Python dict). -/
abbrev LogEntry := List (String × JValue)

/-- The dict literal of lines 156-165. -/
def initialEntry (input : List (String × JValue)) (ts : String) : LogEntry :=
  [("ts", .str ts),
   ("session_id", pyGet input "session_id" (.str "unknown")),
   ("event", pyGet input "hook_event_name" (.str "unknown")),
   ("tool_name", pyGet input "tool_name" .null),
   ("tool_input", pyOr (pyGet input "tool_input" .null) (.obj [])),
   ("prompt", pyGet input "prompt" .null),
   ("cwd", pyGet input "cwd" .null),
   ("permission_mode", pyGet input "permission_mode" .null)]

/-- Apply a sequence of log_entry[key] = value assignments in order. -/
def applyUpds : LogEntry → List (String × JValue) → LogEntry
  | e, [] => e
  | e, kv :: rest => applyUpds (dictSet e kv.1 kv.2) rest

/-- Task tool flattening (lines 170-175). -/
def taskToolUpdates (ti : List (String × JValue)) : List (String × JValue) :=
  [("subagent_type", pyGet ti "subagent_type" .null),
   ("subagent_model", pyGet ti "model" .null),
   ("subagent_description", pyGet ti "description" .null),
   ("subagent_run_in_background", pyGet ti "run_in_background" .null),
   ("subagent_resume", pyGet ti "resume" .null)]

/-- Bash tool flattening (lines 187-192). -/
def bashToolUpdates (ti : List (String × JValue)) : List (String × JValue) :=
  [("bash_command", pyGet ti "command" .null),
   ("bash_description", pyGet ti "description" .null),
   ("bash_timeout", pyGet ti "timeout" .null),
   ("bash_background", pyGet ti "run_in_background" .null),
   ("bash_no_sandbox", pyGet ti "dangerouslyDisableSandbox" .null)]

/-- Read tool flattening (lines 195-198). -/
def readToolUpdates (ti : List (String × JValue)) : List (String × JValue) :=
  [("file_path", pyGet ti "file_path" .null),
   ("read_offset", pyGet ti "offset" .null),
   ("read_limit", pyGet ti "limit" .null)]

/-- Edit tool flattening (lines 208-210). -/
def editToolUpdates (ti : List (String × JValue)) : List (String × JValue) :=
  [("file_path", pyGet ti "file_path" .null),
   ("edit_replace_all", pyGet ti "replace_all" .null)]

/-- Grep tool flattening (lines 213-217). -/
def grepToolUpdates (ti : List (String × JValue)) : List (String × JValue) :=
  [("grep_pattern", pyGet ti "pattern" .null),
   ("grep_path", pyGet ti "path" .null),
   ("grep_glob", pyGet ti "glob" .null),
   ("grep_output_mode", pyGet ti "output_mode" .null)]

/-- Glob tool flattening (lines 220-222). -/
def globToolUpdates (ti : List (String × JValue)) : List (String × JValue) :=
  [("glob_pattern", pyGet ti "pattern" .null),
   ("glob_path", pyGet ti "path" .null)]

/-- TaskOutput tool flattening (lines 233-236). -/
def taskOutputToolUpdates (ti : List (String × JValue)) : List (String × JValue) :=
  [("task_output_id", pyGet ti "task_id" .null),
   ("task_output_block", pyGet ti "block" .null),
   ("task_output_timeout", pyGet ti "timeout" .null)]

/-- Line 205: len(content) if content else 0. -/
def writeContentLength (content : JValue) : Except Unit Int :=
  if jTruthy content then pyLen content else .ok 0

/-- The tool-specific flattening of lines 167-236, run when tool_input is
truthy: the assignments of the branch selected by tool_name.  Each branch
reads fields of tool_input, so a truthy non-dict tool_input raises. -/
def toolUpdates (tool_name tool_input : JValue) :
    Except Unit (List (String × JValue)) :=
  if jEqStr tool_name "Task" then (asObj tool_input).map taskToolUpdates
  else if jEqStr tool_name "Bash" then (asObj tool_input).map bashToolUpdates
  else if jEqStr tool_name "Read" then (asObj tool_input).map readToolUpdates
  else if jEqStr tool_name "Write" then do
    let ti ← asObj tool_input
    let n ← writeContentLength (pyGet ti "content" (.str ""))
    .ok [("file_path", pyGet ti "file_path" .null),
         ("write_content_length", .num n)]
  else if jEqStr tool_name "Edit" then (asObj tool_input).map editToolUpdates
  else if jEqStr tool_name "Grep" then (asObj tool_input).map grepToolUpdates
  else if jEqStr tool_name "Glob" then (asObj tool_input).map globToolUpdates
  else if jEqStr tool_name "WebSearch" then
    (asObj tool_input).map fun ti => [("search_query", pyGet ti "query" .null)]
  else if jEqStr tool_name "WebFetch" then
    (asObj tool_input).map fun ti => [("fetch_url", pyGet ti "url" .null)]
  else if jEqStr tool_name "TaskOutput" then (asObj tool_input).map taskOutputToolUpdates
  else .ok []

/-- The `if tool_input` block of lines 167-236 together with the
PreToolUse pending write of lines 177-184, which runs inside the Task
branch. -/
def preToolStage (event tool_name tool_input session_id : JValue)
    (st : StoreState) (now : Nat) :
    Except Unit (List (String × JValue) × StoreState) :=
  if jTruthy tool_input then do
    let us ← toolUpdates tool_name tool_input
    if jEqStr tool_name "Task" && jEqStr event "PreToolUse" then do
      let ti ← asObj tool_input
      .ok (us, set_pending_task st (pyStr session_id)
        (pyGet ti "subagent_type" .null) (pyGet ti "model" .null)
        (pyGet ti "description" .null) now)
    else .ok (us, st)
  else .ok ([], st)

/-- The PostToolUse block of lines 239-258: for a Task tool with a truthy
response, record agent_id and the truncated response text and register the
agent when both agent_id and tool_input are truthy; for every other tool
record the full tool_response. -/
def postToolUse (input : List (String × JValue)) (tool_name tool_input : JValue)
    (st : StoreState) (now : Nat) :
    Except Unit (List (String × JValue) × StoreState) :=
  let tool_response := pyGet input "tool_response" .null
  if jEqStr tool_name "Task" && jTruthy tool_response then do
    let tr ← asObj tool_response
    let agent_id := pyGet tr "agentId" .null
    let resp ← extract_task_response tr
    let base := [("agent_id", agent_id),
                 ("subagent_response", JValue.str (resp.take 5000))]
    if jTruthy agent_id && jTruthy tool_input then do
      let ti ← asObj tool_input
      let st' ← registerAgentJ st agent_id (pyGet ti "subagent_type" .null)
        (pyGet ti "model" .null) (pyGet ti "description" .null) now
      .ok (base, st')
    else .ok (base, st)
  else .ok ([("tool_response", tool_response)], st)

/-- The Stop block of lines 260-265. -/
def stopUpdates (input : List (String × JValue))
    (transcripts : List (String × TranscriptLines)) :
    Except Unit (List (String × JValue)) := do
  let response ← get_last_assistant_message transcripts
    (pyGet input "transcript_path" (.str ""))
  .ok [("assistant_response",
          if response = "" then JValue.null else .str (response.take 5000)),
       ("stop_hook_active", pyGet input "stop_hook_active" .null)]

/-- The SubagentStop block of lines 267-296: transcript text, agent_id and
stop_hook_active, then metadata via lookup_agent with the fallback to the
pending entry, registering the agent when the fallback yields data. -/
def subagentStop (input : List (String × JValue)) (session_id : JValue)
    (st : StoreState) (now : Nat)
    (transcripts : List (String × TranscriptLines)) :
    Except Unit (List (String × JValue) × StoreState) := do
  let tpath := pyOr (pyGet input "agent_transcript_path" .null)
    (pyGet input "transcript_path" (.str ""))
  let response ← get_last_assistant_message transcripts tpath
  let agent_id := pyGet input "agent_id" .null
  let base := [("assistant_response",
                  if response = "" then JValue.null else .str (response.take 5000)),
               ("agent_id", agent_id),
               ("stop_hook_active", pyGet input "stop_hook_active" .null)]
  let info ← lookupAgentJ st agent_id
  match info with
  | some r =>
      .ok (base ++ [("subagent_type", r.subagent_type),
                    ("subagent_model", r.model),
                    ("subagent_description", r.description)], st)
  | none =>
      match get_and_clear_pending_task st (pyStr session_id) with
      | (some p, st') => do
          let st'' ← registerAgentJ st' agent_id p.subagent_type p.model
            p.description now
          .ok (base ++ [("subagent_type", p.subagent_type),
                        ("subagent_model", p.model),
                        ("subagent_description", p.description)], st'')
      | (none, st') => .ok (base, st')

/-- The SessionStart, SessionEnd, Notification and PreCompact assignments
of lines 298-311. -/
def miscUpdates (event : JValue) (input : List (String × JValue)) :
    List (String × JValue) :=
  (if jEqStr event "SessionStart" then [("source", pyGet input "source" .null)]
   else []) ++
  (if jEqStr event "SessionEnd" then [("reason", pyGet input "reason" .null)]
   else []) ++
  (if jEqStr event "Notification" then
     [("message", pyGet input "message" .null),
      ("notification_type", pyGet input "notification_type" .null)]
   else []) ++
  (if jEqStr event "PreCompact" then [("trigger", pyGet input "trigger" .null)]
   else [])

/-- Line 239: the PostToolUse block runs only for that event. -/
def postStage (event : JValue) (input : List (String × JValue))
    (tool_name tool_input : JValue) (st1 : StoreState) (now : Nat) :
    Except Unit (List (String × JValue) × StoreState) :=
  if jEqStr event "PostToolUse" then postToolUse input tool_name tool_input st1 now
  else .ok ([], st1)

/-- Line 261: the Stop block runs only for that event. -/
def stopStage (event : JValue) (input : List (String × JValue))
    (transcripts : List (String × TranscriptLines)) :
    Except Unit (List (String × JValue)) :=
  if jEqStr event "Stop" then stopUpdates input transcripts
  else .ok []

/-- Line 268: the SubagentStop block runs only for that event. -/
def subagentStage (event : JValue) (input : List (String × JValue))
    (session_id : JValue) (st2 : StoreState) (now : Nat)
    (transcripts : List (String × TranscriptLines)) :
    Except Unit (List (String × JValue) × StoreState) :=
  if jEqStr event "SubagentStop" then subagentStop input session_id st2 now transcripts
  else .ok ([], st2)

/-- All log_entry assignments after the initial literal, in program order,
together with the store effects they interleave with.  No reachable error
path runs after a store mutation (the branch that performs a mutation
finishes without further fallible steps), so an error leaves the store as
it was. -/
def eventEffects (input : List (String × JValue)) (now : Nat) (st : StoreState)
    (transcripts : List (String × TranscriptLines)) :
    Except Unit (List (String × JValue) × StoreState) := do
  let session_id := pyGet input "session_id" (.str "unknown")
  let event := pyGet input "hook_event_name" (.str "unknown")
  let tool_name := pyGet input "tool_name" .null
  let tool_input := pyOr (pyGet input "tool_input" .null) (.obj [])
  let r1 ← preToolStage event tool_name tool_input session_id st now
  let r2 ← postStage event input tool_name tool_input r1.2 now
  let us3 ← stopStage event input transcripts
  let r4 ← subagentStage event input session_id r2.2 now transcripts
  .ok (r1.1 ++ r2.1 ++ us3 ++ r4.1 ++ miscUpdates event input, r4.2)

/-- The processing of one decoded event (lines 146-311): the initial dict
literal followed by every assignment the event selects, plus the store
effects.  Returns the finished log_entry before the None filter. -/
def processEvent (input : List (String × JValue)) (ts : String) (now : Nat)
    (st : StoreState) (transcripts : List (String × TranscriptLines)) :
    Except Unit (LogEntry × StoreState) :=
  (eventEffects input now st transcripts).map fun r =>
    (applyUpds (initialEntry input ts) r.1, r.2)

/-- The `v is not None` test of line 314. -/
def keepVal : JValue → Bool
  | JValue.null => false
  | _ => true

/-- Line 314: drop every None-valued field before writing. -/
def filterNone (e : LogEntry) : LogEntry :=
  e.filter fun kv => keepVal kv.2

/-- The record main persists for an input, if processing succeeds. -/
def persistedRecord (input : List (String × JValue)) (ts : String) (now : Nat)
    (st : StoreState) (transcripts : List (String × TranscriptLines)) :
    Option LogEntry :=
  match processEvent input ts now st transcripts with
  | .ok r => some (filterNone r.1)
  | .error _ => none

/-- The store contents after processing one event (unchanged when
processing raises: no reachable error path runs after a store write). -/
def storeAfter (input : List (String × JValue)) (ts : String) (now : Nat)
    (st : StoreState) (transcripts : List (String × TranscriptLines)) :
    StoreState :=
  match processEvent input ts now st transcripts with
  | .ok r => r.2
  | .error _ => st

/-- Whether processing finishes without an uncaught exception. -/
def processOk (input : List (String × JValue)) (ts : String) (now : Nat)
    (st : StoreState) (transcripts : List (String × TranscriptLines)) : Bool :=
  match processEvent input ts now st transcripts with
  | .ok _ => true
  | .error _ => false

/-- A SubagentStop event for session S carrying operation id I. -/
def subagentStopInput (S I : String) : List (String × JValue) :=
  [("session_id", .str S),
   ("hook_event_name", .str "SubagentStop"),
   ("agent_id", .str I)]

/-! ### The process boundary (main) -/

/-- The observable filesystem state of one invocation: whether the log
directory exists, the store file contents, the per-file appended records
and the latest.jsonl alias target. -/
structure FSState where
  logDirExists : Bool
  store : StoreState
  logs : List (String × List LogEntry)
  latest : Option String

/-- How the process ends: sys.exit(code), or an uncaught exception (which
the interpreter turns into a nonzero exit). -/
inductive Outcome where
  | exited (code : Nat)
  | raised

/-- Injected environment faults: whether opening or writing the session
log file raises an IOError. -/
structure Faults where
  appendRaises : Bool

/-- Append one record to a session log file. -/
def appendLog (logs : List (String × List LogEntry)) (file : String)
    (e : LogEntry) : List (String × List LogEntry) :=
  match dictGet logs file with
  | some es => dictSet logs file (es ++ [e])
  | none => logs ++ [(file, [e])]

/-- main (lines 131-329).  The log directory is created before stdin is
decoded (lines 132-138, including the tracker mkdir); a decode failure
exits 0 silently (lines 141-144); the session-file append of lines
317-319 is not guarded, so an IOError there propagates; the symlink
update of lines 321-327 is wrapped in try/except. -/
def runMain (stdin : Option (List (String × JValue))) (ts : String) (now : Nat)
    (transcripts : List (String × TranscriptLines)) (fs : FSState)
    (f : Faults) : Outcome × FSState :=
  let fs := { fs with logDirExists := true }
  match stdin with
  | none => (.exited 0, fs)
  | some input =>
      match processEvent input ts now fs.store transcripts with
      | .error _ => (.raised, fs)
      | .ok r =>
          let fs := { fs with store := r.2 }
          let file := "hooks-" ++ pyStr (pyGet input "session_id" (.str "unknown"))
            ++ ".jsonl"
          if f.appendRaises then (.raised, fs)
          else
            (.exited 0, { fs with logs := appendLog fs.logs file (filterNone r.1),
                                  latest := some file })

/-- The keys a branch assignment may touch never include the three common
fields. -/
def keysAvoidCommon (us : List (String × JValue)) : Bool :=
  us.all fun kv => !(kv.1 == "ts" || kv.1 == "session_id" || kv.1 == "event")

/-- Absent or empty in the sense of the specification: None, the empty
string, the empty list and the empty dict. -/
def isEmptyVal : JValue → Bool
  | .null => true
  | .str "" => true
  | .arr [] => true
  | .obj [] => true
  | _ => false

/-! ### Dictionary lemmas -/

theorem dictGet_dictSet_self {β : Type} (l : List (String × β)) (k : String) (v : β) :
    dictGet (dictSet l k v) k = some v := by
  induction l with
  | nil => simp [dictGet, dictSet]
  | cons e rest ih =>
      by_cases h : e.1 = k
      · simp [dictSet, dictGet, h]
      · simpa [dictSet, dictGet, h] using ih

theorem dictGet_dictSet_ne {β : Type} (l : List (String × β)) (k k' : String) (v : β)
    (h : k' ≠ k) : dictGet (dictSet l k v) k' = dictGet l k' := by
  induction l with
  | nil => simp [dictGet, dictSet, Ne.symm h]
  | cons e rest ih =>
      obtain ⟨ek, ev⟩ := e
      by_cases he : ek = k
      · subst he
        simp [dictSet, dictGet, Ne.symm h, ih]
      · simp [dictSet, dictGet, he, ih]

theorem length_dictSet_of_isSome {β : Type} (l : List (String × β)) (k : String) (v : β)
    (h : (dictGet l k).isSome) : (dictSet l k v).length = l.length := by
  induction l with
  | nil => simp [dictGet] at h
  | cons e rest ih =>
      by_cases he : e.1 = k
      · simp [dictSet, he]
      · simp [dictGet, he] at h
        simp [dictSet, he, ih h]

theorem dictSet_of_fresh {β : Type} (l : List (String × β)) (k : String) (v : β)
    (h : dictGet l k = none) : dictSet l k v = l ++ [(k, v)] := by
  induction l with
  | nil => simp [dictSet]
  | cons e rest ih =>
      by_cases he : e.1 = k
      · simp [dictGet, he] at h
      · simp [dictGet, he] at h
        simp [dictSet, he, ih h]

theorem mem_dictSet {β : Type} (l : List (String × β)) (k : String) (v : β)
    (e : String × β) (h : e ∈ dictSet l k v) : e = (k, v) ∨ e ∈ l := by
  induction l with
  | nil => simpa [dictSet] using h
  | cons f rest ih =>
      by_cases hf : f.1 = k
      · rcases (by simpa [dictSet, hf] using h) with h' | h'
        · exact .inl h'
        · exact .inr (.tail _ h')
      · rcases (by simpa [dictSet, hf] using h) with h' | h'
        · exact .inr (h' ▸ .head _)
        · rcases ih h' with h'' | h''
          · exact .inl h''
          · exact .inr (.tail _ h'')

theorem dictGet_eq_none_iff {β : Type} (l : List (String × β)) (k : String) :
    dictGet l k = none ↔ ∀ e ∈ l, e.1 ≠ k := by
  induction l with
  | nil => simp [dictGet]
  | cons e rest ih =>
      by_cases he : e.1 = k <;> simp [dictGet, he, ih]

theorem dictGet_append_right {β : Type} (l₁ l₂ : List (String × β)) (k : String)
    (h : ∀ e ∈ l₁, e.1 ≠ k) : dictGet (l₁ ++ l₂) k = dictGet l₂ k := by
  induction l₁ with
  | nil => simp
  | cons e rest ih =>
      have he : e.1 ≠ k := h e (.head _)
      simpa [dictGet, he] using ih (fun f hf => h f (.tail _ hf))

theorem mem_dictRemove {β : Type} (l : List (String × β)) (k : String)
    (e : String × β) (h : e ∈ dictRemove l k) : e ∈ l := by
  induction l with
  | nil => simp [dictRemove] at h
  | cons f rest ih =>
      by_cases hf : f.1 = k
      · exact .tail _ (by simpa [dictRemove, hf] using h)
      · rcases (by simpa [dictRemove, hf] using h) with h' | h'
        · exact h' ▸ .head _
        · exact .tail _ (ih h')

theorem length_dictRemove_of_isSome {β : Type} (l : List (String × β)) (k : String)
    (h : (dictGet l k).isSome) : (dictRemove l k).length + 1 = l.length := by
  induction l with
  | nil => simp [dictGet] at h
  | cons e rest ih =>
      by_cases he : e.1 = k
      · simp [dictRemove, he]
      · simp [dictGet, he] at h
        simp [dictRemove, he, ih h]

theorem dictGet_dictRemove_self {β : Type} (l : List (String × β)) (k : String)
    (hnd : (l.map Prod.fst).Nodup) : dictGet (dictRemove l k) k = none := by
  induction l with
  | nil => simp [dictRemove, dictGet]
  | cons e rest ih =>
      obtain ⟨ek, ev⟩ := e
      simp only [List.map_cons, List.nodup_cons] at hnd
      by_cases he : ek = k
      · subst he
        simp only [dictRemove, if_pos rfl]
        rw [dictGet_eq_none_iff]
        intro f hf hfk
        exact hnd.1 (hfk ▸ List.mem_map_of_mem Prod.fst hf)
      · simpa [dictRemove, dictGet, he] using ih hnd.2

/-! ### Stable sort lemmas -/

theorem length_insertByTime (x : String × AgentRecord) (l : List (String × AgentRecord)) :
    (insertByTime x l).length = l.length + 1 := by
  induction l with
  | nil => simp [insertByTime]
  | cons y ys ih =>
      by_cases h : x.2.registered_at ≤ y.2.registered_at <;> simp [insertByTime, h, ih]

theorem length_sortByTime (l : List (String × AgentRecord)) :
    (sortByTime l).length = l.length := by
  induction l with
  | nil => rfl
  | cons x xs ih => simp [sortByTime, length_insertByTime, ih]

theorem mem_insertByTime (x a : String × AgentRecord) (l : List (String × AgentRecord)) :
    a ∈ insertByTime x l ↔ a = x ∨ a ∈ l := by
  induction l with
  | nil => simp [insertByTime]
  | cons y ys ih =>
      by_cases h : x.2.registered_at ≤ y.2.registered_at
      · simp [insertByTime, h]
      · simp [insertByTime, h, ih]
        tauto

theorem mem_sortByTime (a : String × AgentRecord) (l : List (String × AgentRecord)) :
    a ∈ sortByTime l ↔ a ∈ l := by
  induction l with
  | nil => simp [sortByTime]
  | cons x xs ih => simp [sortByTime, mem_insertByTime, ih]

theorem sorted_insertByTime (x : String × AgentRecord) (l : List (String × AgentRecord))
    (h : l.Pairwise (fun a b => a.2.registered_at ≤ b.2.registered_at)) :
    (insertByTime x l).Pairwise (fun a b => a.2.registered_at ≤ b.2.registered_at) := by
  induction l with
  | nil => simp [insertByTime]
  | cons y ys ih =>
      rcases List.pairwise_cons.mp h with ⟨hy, hys⟩
      by_cases hle : x.2.registered_at ≤ y.2.registered_at
      · rw [insertByTime, if_pos hle]
        refine List.pairwise_cons.mpr ⟨?_, h⟩
        intro b hb
        rcases List.mem_cons.mp hb with rfl | hb'
        · exact hle
        · exact le_trans hle (hy _ hb')
      · rw [insertByTime, if_neg hle]
        refine List.pairwise_cons.mpr ⟨?_, ih hys⟩
        intro b hb
        rcases (mem_insertByTime x b ys).mp hb with hb' | hb'
        · exact hb' ▸ le_of_not_le hle
        · exact hy _ hb'

theorem sorted_sortByTime (l : List (String × AgentRecord)) :
    (sortByTime l).Pairwise (fun a b => a.2.registered_at ≤ b.2.registered_at) := by
  induction l with
  | nil => simp [sortByTime]
  | cons x xs ih => exact sorted_insertByTime x _ ih

theorem insertByTime_append_last (a x : String × AgentRecord)
    (l : List (String × AgentRecord)) (h : a.2.registered_at ≤ x.2.registered_at) :
    insertByTime a (l ++ [x]) = insertByTime a l ++ [x] := by
  induction l with
  | nil => simp [insertByTime, h]
  | cons y ys ih =>
      by_cases hy : a.2.registered_at ≤ y.2.registered_at <;>
        simp [insertByTime, hy, ih]

theorem sortByTime_append_last (x : String × AgentRecord) (l : List (String × AgentRecord))
    (h : ∀ e ∈ l, e.2.registered_at ≤ x.2.registered_at) :
    sortByTime (l ++ [x]) = sortByTime l ++ [x] := by
  induction l with
  | nil => rfl
  | cons a as ih =>
      have ha : a.2.registered_at ≤ x.2.registered_at := h a (.head _)
      calc sortByTime ((a :: as) ++ [x]) = insertByTime a (sortByTime (as ++ [x])) := rfl
        _ = insertByTime a (sortByTime as ++ [x]) := by
              rw [ih (fun e he => h e (.tail _ he))]
        _ = insertByTime a (sortByTime as) ++ [x] := insertByTime_append_last a x _ ha
        _ = sortByTime (a :: as) ++ [x] := rfl

/-! ### Eviction and register lemmas -/

theorem length_evictOldest (l : StoreState) :
    (evictOldest l).length = min l.length 100 := by
  by_cases h : 100 < l.length
  · simp [evictOldest, h, length_sortByTime]
    omega
  · simp [evictOldest, h]
    omega

theorem evictOldest_of_le (l : StoreState) (h : l.length ≤ 100) : evictOldest l = l := by
  simp [evictOldest, Nat.not_lt.mpr h]

theorem mem_evictOldest (l : StoreState) (e : String × AgentRecord)
    (h : e ∈ evictOldest l) : e ∈ l := by
  by_cases hl : 100 < l.length
  · simp only [evictOldest, if_pos hl] at h
    exact (mem_sortByTime e l).mp (List.mem_of_mem_drop h)
  · simpa [evictOldest, hl] using h

theorem register_agent_length_le (st : StoreState) (k : String)
    (ty mdl d : JValue) (t : Nat) (hk : k ≠ "") :
    (register_agent st k ty mdl d t).length ≤ 100 := by
  simp only [register_agent, if_neg hk]
  rw [length_evictOldest]
  omega

theorem mem_register_agent (st : StoreState) (k : String) (ty mdl d : JValue) (t : Nat)
    (e : String × AgentRecord) (h : e ∈ register_agent st k ty mdl d t) :
    e = (k, ⟨ty, mdl, d, t⟩) ∨ e ∈ st := by
  by_cases hk : k = ""
  · exact .inr (by simpa [register_agent, hk] using h)
  · simp only [register_agent, if_neg hk] at h
    exact mem_dictSet st k _ e (mem_evictOldest _ e h)

theorem register_agent_fresh_lookup (st : StoreState) (k : String)
    (ty mdl d : JValue) (t : Nat) (hk : k ≠ "") (hfresh : dictGet st k = none)
    (hts : ∀ e ∈ st, e.2.registered_at ≤ t) :
    dictGet (register_agent st k ty mdl d t) k = some ⟨ty, mdl, d, t⟩ := by
  simp only [register_agent, if_neg hk]
  rw [dictSet_of_fresh st k _ hfresh]
  have hkeys : ∀ e ∈ st, e.1 ≠ k := (dictGet_eq_none_iff st k).mp hfresh
  by_cases hlen : 100 < (st ++ [(k, (⟨ty, mdl, d, t⟩ : AgentRecord))]).length
  · simp only [evictOldest, if_pos hlen]
    rw [sortByTime_append_last _ st hts]
    have hm : (st ++ [(k, (⟨ty, mdl, d, t⟩ : AgentRecord))]).length - 100
        ≤ (sortByTime st).length := by
      rw [length_sortByTime]
      simp only [List.length_append, List.length_cons, List.length_nil] at hlen ⊢
      omega
    rw [List.drop_append_of_le_length hm]
    rw [dictGet_append_right]
    · simp [dictGet]
    · intro e he
      exact hkeys e ((mem_sortByTime e st).mp (List.mem_of_mem_drop he))
  · rw [evictOldest_of_le _ (Nat.not_lt.mp hlen)]
    rw [dictGet_append_right _ _ _ hkeys]
    simp [dictGet]

theorem dictGet_register_agent_other (st : StoreState) (k : String)
    (ty mdl d : JValue) (t : Nat) (p : String) (hp : p ≠ k)
    (hnone : dictGet st p = none) :
    dictGet (register_agent st k ty mdl d t) p = none := by
  rw [dictGet_eq_none_iff]
  intro e he
  rcases mem_register_agent st k ty mdl d t e he with h | h
  · rw [h]
    exact fun hc => hp hc.symm
  · exact (dictGet_eq_none_iff st p).mp hnone e h

/-! ### Log record lemmas -/

theorem filterNone_no_null (e : LogEntry) :
    ∀ kv ∈ filterNone e, kv.2 ≠ JValue.null := by
  intro kv hkv hnull
  have hp := (List.mem_filter.mp hkv).2
  rw [hnull] at hp
  simp [keepVal] at hp

theorem dictGet_applyUpds (us : List (String × JValue)) (e : LogEntry) (k : String)
    (h : ∀ kv ∈ us, kv.1 ≠ k) :
    dictGet (applyUpds e us) k = dictGet e k := by
  induction us generalizing e with
  | nil => rfl
  | cons u rest ih =>
      rw [applyUpds]
      rw [ih (dictSet e u.1 u.2) (fun kv hkv => h kv (.tail _ hkv))]
      exact dictGet_dictSet_ne e u.1 k u.2 (fun hc => h u (.head _) hc.symm)

theorem keepVal_of_ne (v : JValue) (hv : v ≠ JValue.null) : keepVal v = true := by
  cases v <;> first | exact absurd rfl hv | rfl

theorem dictGet_filterNone (e : LogEntry) (k : String) (v : JValue)
    (hv : v ≠ JValue.null) (h : dictGet e k = some v) :
    dictGet (filterNone e) k = some v := by
  induction e with
  | nil => simp [dictGet] at h
  | cons f rest ih =>
      obtain ⟨fk, fv⟩ := f
      by_cases hk : fk = k
      · subst hk
        simp only [dictGet, if_pos rfl] at h
        injection h with h
        simp only [filterNone, List.filter]
        rw [keepVal_of_ne fv (h.symm ▸ hv)]
        simp [dictGet, h]
      · simp only [dictGet, if_neg hk] at h
        simp only [filterNone, List.filter]
        cases hfv : keepVal fv with
        | true => simpa [dictGet, hk] using ih h
        | false => exact ih h

theorem keysAvoidCommon_spec (us : List (String × JValue))
    (h : keysAvoidCommon us = true) :
    ∀ kv ∈ us, kv.1 ≠ "ts" ∧ kv.1 ≠ "session_id" ∧ kv.1 ≠ "event" := by
  intro kv hkv
  have h2 := List.all_eq_true.mp h kv hkv
  simp at h2
  tauto

theorem listIsStart_append (p r : List Char) : listIsStart p (p ++ r) = true := by
  induction p with
  | nil => rfl
  | cons c cs ih => simp [listIsStart, ih]

theorem strHasPendingMarker_pendingKey (S : String) :
    strHasPendingMarker (pendingKey S) = true := by
  unfold strHasPendingMarker pendingKey
  rw [String.data_append]
  exact listIsStart_append _ _

/-! ### Claim C1 -/

set_option maxRecDepth 10000 in
/-- C1 counterexample: the claim quantifies over every store operation, but
set_pending_task performs no eviction, so a sequence of 101 setPending
operations with distinct session ids leaves 101 records in the store. -/
theorem setPending_overflows_bound :
    ¬ ∀ ops : List StoreOp, (runOps ops).length ≤ 100 := by
  intro h
  have hlen : (runOps ((List.range 101).map fun i =>
      StoreOp.setPending (toString i) .null .null .null)).length = 101 := by rfl
  have hle := h ((List.range 101).map fun i =>
      StoreOp.setPending (toString i) .null .null .null)
  omega

/-- C1 amended: after every register with a truthy (nonempty) agent id the
store holds at most 100 records; when the insertion leaves more than 100,
exactly 100 remain and every evicted record has a registered_at no larger
than that of every retained record.  Only register evicts: setPending,
takeAndClearPending and lookup never do, so setPending can leave the store
above the bound (see the counterexample). -/
theorem register_agent_bounded (st : StoreState) (k : String) (ty mdl d : JValue)
    (t : Nat) (hk : k ≠ "") :
    (register_agent st k ty mdl d t).length ≤ 100 ∧
    (100 < (dictSet st k ⟨ty, mdl, d, t⟩).length →
      (register_agent st k ty mdl d t).length = 100) ∧
    (∀ e ∈ dictSet st k ⟨ty, mdl, d, t⟩, e ∉ register_agent st k ty mdl d t →
      ∀ r ∈ register_agent st k ty mdl d t,
        e.2.registered_at ≤ r.2.registered_at) := by
  refine ⟨register_agent_length_le st k ty mdl d t hk, ?_, ?_⟩
  · intro hgt
    simp only [register_agent, if_neg hk]
    rw [length_evictOldest]
    omega
  · intro e he hne r hr
    simp only [register_agent, if_neg hk] at hne hr
    by_cases hl : 100 < (dictSet st k (⟨ty, mdl, d, t⟩ : AgentRecord)).length
    · have hres : evictOldest (dictSet st k (⟨ty, mdl, d, t⟩ : AgentRecord))
          = (sortByTime (dictSet st k ⟨ty, mdl, d, t⟩)).drop
              ((dictSet st k (⟨ty, mdl, d, t⟩ : AgentRecord)).length - 100) := by
        simp [evictOldest, hl]
      rw [hres] at hne hr
      have hsplit := List.take_append_drop
        ((dictSet st k (⟨ty, mdl, d, t⟩ : AgentRecord)).length - 100)
        (sortByTime (dictSet st k ⟨ty, mdl, d, t⟩))
      have htake : e ∈ (sortByTime (dictSet st k ⟨ty, mdl, d, t⟩)).take
          ((dictSet st k (⟨ty, mdl, d, t⟩ : AgentRecord)).length - 100) := by
        have hesort : e ∈ sortByTime (dictSet st k ⟨ty, mdl, d, t⟩) :=
          (mem_sortByTime e _).mpr he
        rcases List.mem_append.mp (by rw [hsplit]; exact hesort) with h' | h'
        · exact h'
        · exact absurd h' hne
      have hpw := sorted_sortByTime (dictSet st k ⟨ty, mdl, d, t⟩)
      rw [← hsplit] at hpw
      exact (List.pairwise_append.mp hpw).2.2 e htake r hr
    · rw [evictOldest_of_le _ (Nat.not_lt.mp hl)] at hne
      exact absurd he hne

/-- C1 witness: the amended bound at a concrete register on the empty store. -/
theorem register_agent_bounded_witness :
    (register_agent [] "a" (JValue.str "x") JValue.null JValue.null 0).length ≤ 100 ∧
    (100 < (dictSet [] "a" (⟨JValue.str "x", JValue.null, JValue.null, 0⟩ : AgentRecord)).length →
      (register_agent [] "a" (JValue.str "x") JValue.null JValue.null 0).length = 100) ∧
    (∀ e ∈ dictSet [] "a" (⟨JValue.str "x", JValue.null, JValue.null, 0⟩ : AgentRecord),
      e ∉ register_agent [] "a" (JValue.str "x") JValue.null JValue.null 0 →
      ∀ r ∈ register_agent [] "a" (JValue.str "x") JValue.null JValue.null 0,
        e.2.registered_at ≤ r.2.registered_at) :=
  register_agent_bounded [] "a" (JValue.str "x") JValue.null JValue.null 0 (by decide)

/-! ### Claim C6 -/

/-- C6 counterexample: the synthesized pending key is only marked by the
text pending_ in front of the session id, so the operation id pending_x
collides with the pending key of session x. -/
theorem pendingKey_collides_with_marked_id :
    ¬ ∀ S I : String, pendingKey S ≠ I := by
  intro h
  exact h "x" "pending_x" rfl

/-- C6 amended: the pending key of a session is distinct from every
operation id that does not itself start with the reserved text pending_ . -/
theorem pendingKey_ne_of_unmarked (S I : String)
    (h : strHasPendingMarker I = false) : pendingKey S ≠ I := by
  intro he
  have hm := strHasPendingMarker_pendingKey S
  rw [he, h] at hm
  exact Bool.noConfusion hm

/-- C6 witness: a concrete session id and a concrete unmarked operation id. -/
theorem pendingKey_ne_of_unmarked_witness : pendingKey "abc" ≠ "task1" :=
  pendingKey_ne_of_unmarked "abc" "task1" (by decide)

/-! ### Claim C7 -/

/-- C7 counterexample: register_agent returns without writing when the key
is falsy, so registering the empty key twice leaves no record and lookup
misses. -/
theorem register_twice_fails_empty_key :
    ¬ ∀ (st : StoreState) (k : String) (ty mdl d : JValue) (t1 t2 : Nat),
      (lookup_agent (register_agent (register_agent st k ty mdl d t1) k ty mdl d t2) k).map
          (fun r => (r.subagent_type, r.model, r.description)) = some (ty, mdl, d) ∧
      (register_agent (register_agent st k ty mdl d t1) k ty mdl d t2).length
        = (register_agent st k ty mdl d t1).length := by
  intro h
  have h1 := (h [] "" JValue.null JValue.null JValue.null 0 0).1
  simp [register_agent, lookup_agent] at h1

/-- C7 amended: for every nonempty key, registering the same metadata twice
(at clock values consistent with the monotone registered_at invariant)
yields a store where lookup returns that metadata, and the second call does
not change the record count. -/
theorem register_twice_same_metadata (st : StoreState) (k : String)
    (ty mdl d : JValue) (t1 t2 : Nat) (hk : k ≠ "")
    (hts : ∀ e ∈ st, e.2.registered_at ≤ t1) (h12 : t1 ≤ t2) :
    lookup_agent (register_agent (register_agent st k ty mdl d t1) k ty mdl d t2) k
      = some ⟨ty, mdl, d, t2⟩ ∧
    (register_agent (register_agent st k ty mdl d t1) k ty mdl d t2).length
      = (register_agent st k ty mdl d t1).length := by
  set s1 := register_agent st k ty mdl d t1 with hs1
  have hs1le : s1.length ≤ 100 := register_agent_length_le st k ty mdl d t1 hk
  have hts1 : ∀ e ∈ s1, e.2.registered_at ≤ t2 := by
    intro e he
    rcases mem_register_agent st k ty mdl d t1 e (hs1 ▸ he) with h | h
    · rw [h]
      exact h12
    · exact le_trans (hts e h) h12
  cases hcase : dictGet s1 k with
  | some r =>
      have hset : (dictSet s1 k (⟨ty, mdl, d, t2⟩ : AgentRecord)).length = s1.length :=
        length_dictSet_of_isSome _ _ _ (by rw [hcase]; rfl)
      have hreg2 : register_agent s1 k ty mdl d t2 = dictSet s1 k ⟨ty, mdl, d, t2⟩ := by
        simp only [register_agent, if_neg hk]
        exact evictOldest_of_le _ (by omega)
      constructor
      · rw [lookup_agent, if_neg hk, hreg2, dictGet_dictSet_self]
      · rw [hreg2, hset]
  | none =>
      have h100 : s1.length = 100 := by
        by_cases hl : 100 < (dictSet st k (⟨ty, mdl, d, t1⟩ : AgentRecord)).length
        · rw [hs1]
          simp only [register_agent, if_neg hk]
          rw [length_evictOldest]
          omega
        · exfalso
          have hid : s1 = dictSet st k ⟨ty, mdl, d, t1⟩ := by
            rw [hs1]
            simp only [register_agent, if_neg hk]
            exact evictOldest_of_le _ (Nat.not_lt.mp hl)
          rw [hid, dictGet_dictSet_self] at hcase
          exact Option.noConfusion hcase
      constructor
      · rw [lookup_agent, if_neg hk]
        exact register_agent_fresh_lookup s1 k ty mdl d t2 hk hcase hts1
      · have hfresh : (dictSet s1 k (⟨ty, mdl, d, t2⟩ : AgentRecord)).length
            = s1.length + 1 := by
          rw [dictSet_of_fresh _ _ _ hcase]
          simp
        simp only [register_agent, if_neg hk]
        rw [length_evictOldest, hfresh, h100]
        omega

/-- C7 witness: two registers of the same metadata at a concrete key. -/
theorem register_twice_same_metadata_witness :
    lookup_agent (register_agent (register_agent [] "a" (JValue.str "t") JValue.null
        JValue.null 0) "a" (JValue.str "t") JValue.null JValue.null 1) "a"
      = some ⟨JValue.str "t", JValue.null, JValue.null, 1⟩ ∧
    (register_agent (register_agent [] "a" (JValue.str "t") JValue.null JValue.null 0)
        "a" (JValue.str "t") JValue.null JValue.null 1).length
      = (register_agent [] "a" (JValue.str "t") JValue.null JValue.null 0).length :=
  register_twice_same_metadata [] "a" (JValue.str "t") JValue.null JValue.null 0 1
    (by decide) (by simp) (by decide)

/-! ### Claim C8 -/

/-- C8 counterexample: with the interleaving read1 read2 write1 write2 both
concurrent callers of takeAndClearPending for the same session finish
holding the pending record, so the read-then-delete is not atomic: an
operation interleaved between the read and the write-back consumed the
entry too. -/
theorem take_pending_not_atomic :
    ¬ ∀ (M : AgentRecord) (sched : List Bool),
      ¬(consumed (runSched "s" sched
            ⟨[(pendingKey "s", M)], .start, .start⟩).pc1 = true ∧
        consumed (runSched "s" sched
            ⟨[(pendingKey "s", M)], .start, .start⟩).pc2 = true) := by
  intro h
  exact h sampleRecord [true, false, true, false] ⟨rfl, rfl⟩

/-- C8 amended: the read and the write-back of takeAndClearPending are two
separate locked file transactions with an unguarded gap; when the two
callers do not interleave, exactly one of them consumes the entry, but an
interleaved caller can consume it too (see the counterexample). -/
theorem take_pending_sequential_exclusive (M : AgentRecord) :
    (runSched "s" [true, true, false, false]
        ⟨[(pendingKey "s", M)], .start, .start⟩).pc1 = .finished (some M) ∧
    (runSched "s" [true, true, false, false]
        ⟨[(pendingKey "s", M)], .start, .start⟩).pc2 = .finished none ∧
    (runSched "s" [false, false, true, true]
        ⟨[(pendingKey "s", M)], .start, .start⟩).pc2 = .finished (some M) ∧
    (runSched "s" [false, false, true, true]
        ⟨[(pendingKey "s", M)], .start, .start⟩).pc1 = .finished none :=
  ⟨rfl, rfl, rfl, rfl⟩

/-! ### Claim C10 -/

/-- C10: when no pending entry exists for the session, the pop yields the
falsy {} and get_and_clear_pending_task writes nothing back: it returns
empty and the store contents are unchanged. -/
theorem take_pending_miss_no_write (st : StoreState) (S : String)
    (h : dictGet st (pendingKey S) = none) :
    get_and_clear_pending_task st S = (none, st) := by
  simp [get_and_clear_pending_task, h]

/-- C10 witness: a miss on a concrete one-record store. -/
theorem take_pending_miss_no_write_witness :
    get_and_clear_pending_task [(pendingKey "a", sampleRecord)] "b"
      = (none, [(pendingKey "a", sampleRecord)]) :=
  take_pending_miss_no_write [(pendingKey "a", sampleRecord)] "b" rfl


theorem exBind_ok {α β : Type} (a : α) (f : α → Except Unit β) :
    (Except.ok a : Except Unit α) >>= f = f a := rfl

theorem exBind_error {α β : Type} (e : Unit) (f : α → Except Unit β) :
    (Except.error e : Except Unit α) >>= f = Except.error e := rfl

theorem exBind_pair_fst {α : Type} (x : Except Unit α) (L : List (String × JValue))
    (g : α → StoreState) (us : List (String × JValue)) (st' : StoreState)
    (h : (x >>= fun a => Except.ok (L, g a)) = Except.ok (us, st')) : us = L := by
  cases x with
  | error e => exact Except.noConfusion h
  | ok a =>
      injection h with h
      exact (congrArg Prod.fst h).symm

theorem keysAvoidCommon_append (a b : List (String × JValue)) :
    keysAvoidCommon (a ++ b) = (keysAvoidCommon a && keysAvoidCommon b) :=
  List.all_append

theorem mapObj_keys (tool_input : JValue)
    (f : List (String × JValue) → List (String × JValue))
    (us : List (String × JValue))
    (h : (asObj tool_input).map f = .ok us)
    (hf : ∀ ti, keysAvoidCommon (f ti) = true) : keysAvoidCommon us = true := by
  cases hobj : asObj tool_input with
  | error e => rw [hobj] at h; simp [Except.map] at h
  | ok ti =>
      rw [hobj] at h
      simp only [Except.map] at h
      injection h with h
      exact h ▸ hf ti

theorem toolUpdates_keys (tool_name tool_input : JValue) (us : List (String × JValue))
    (h : toolUpdates tool_name tool_input = .ok us) : keysAvoidCommon us = true := by
  unfold toolUpdates at h
  split at h
  · exact mapObj_keys _ _ _ h (fun ti => rfl)
  split at h
  · exact mapObj_keys _ _ _ h (fun ti => rfl)
  split at h
  · exact mapObj_keys _ _ _ h (fun ti => rfl)
  split at h
  · -- Write branch
    cases hobj : asObj tool_input with
    | error e => rw [hobj, exBind_error] at h; exact Except.noConfusion h
    | ok ti =>
        rw [hobj, exBind_ok] at h
        cases hn : writeContentLength (pyGet ti "content" (.str "")) with
        | error e => rw [hn, exBind_error] at h; exact Except.noConfusion h
        | ok n =>
            rw [hn, exBind_ok] at h
            injection h with h
            exact h ▸ rfl
  split at h
  · exact mapObj_keys _ _ _ h (fun ti => rfl)
  split at h
  · exact mapObj_keys _ _ _ h (fun ti => rfl)
  split at h
  · exact mapObj_keys _ _ _ h (fun ti => rfl)
  split at h
  · exact mapObj_keys _ _ _ h (fun ti => rfl)
  split at h
  · exact mapObj_keys _ _ _ h (fun ti => rfl)
  split at h
  · exact mapObj_keys _ _ _ h (fun ti => rfl)
  · injection h with h
    exact h ▸ rfl

theorem preToolStage_keys (event tool_name tool_input session_id : JValue)
    (st : StoreState) (now : Nat) (us : List (String × JValue)) (st' : StoreState)
    (h : preToolStage event tool_name tool_input session_id st now = .ok (us, st')) :
    keysAvoidCommon us = true := by
  unfold preToolStage at h
  split at h
  · cases htu : toolUpdates tool_name tool_input with
    | error e => rw [htu, exBind_error] at h; exact Except.noConfusion h
    | ok us0 =>
        rw [htu, exBind_ok] at h
        split at h
        · cases hobj : asObj tool_input with
          | error e => rw [hobj, exBind_error] at h; exact Except.noConfusion h
          | ok ti =>
              rw [hobj, exBind_ok] at h
              injection h with h
              rw [show us = us0 from (congrArg Prod.fst h).symm]
              exact toolUpdates_keys tool_name tool_input us0 htu
        · injection h with h
          rw [show us = us0 from (congrArg Prod.fst h).symm]
          exact toolUpdates_keys tool_name tool_input us0 htu
  · injection h with h
    rw [show us = [] from (congrArg Prod.fst h).symm]
    rfl

theorem postToolUse_keys (input : List (String × JValue)) (tool_name tool_input : JValue)
    (st : StoreState) (now : Nat) (us : List (String × JValue)) (st' : StoreState)
    (h : postToolUse input tool_name tool_input st now = .ok (us, st')) :
    keysAvoidCommon us = true := by
  unfold postToolUse at h
  dsimp only at h
  split at h
  · cases hobj : asObj (pyGet input "tool_response" JValue.null) with
    | error e => rw [hobj, exBind_error] at h; exact Except.noConfusion h
    | ok tr =>
        rw [hobj, exBind_ok] at h
        cases hr : extract_task_response tr with
        | error e => rw [hr, exBind_error] at h; exact Except.noConfusion h
        | ok resp =>
            rw [hr, exBind_ok] at h
            split at h
            · cases hti : asObj tool_input with
              | error e => rw [hti, exBind_error] at h; exact Except.noConfusion h
              | ok ti =>
                  rw [hti, exBind_ok] at h
                  cases hreg : registerAgentJ st (pyGet tr "agentId" JValue.null)
                      (pyGet ti "subagent_type" JValue.null) (pyGet ti "model" JValue.null)
                      (pyGet ti "description" JValue.null) now with
                  | error e => rw [hreg, exBind_error] at h; exact Except.noConfusion h
                  | ok st2 =>
                      rw [hreg, exBind_ok] at h
                      injection h with h
                      rw [show us = _ from (congrArg Prod.fst h).symm]
                      rfl
            · injection h with h
              rw [show us = _ from (congrArg Prod.fst h).symm]
              rfl
  · injection h with h
    rw [show us = _ from (congrArg Prod.fst h).symm]
    rfl

theorem stopUpdates_keys (input : List (String × JValue))
    (transcripts : List (String × TranscriptLines)) (us : List (String × JValue))
    (h : stopUpdates input transcripts = .ok us) : keysAvoidCommon us = true := by
  unfold stopUpdates at h
  cases hr : get_last_assistant_message transcripts (pyGet input "transcript_path" (.str "")) with
  | error e => rw [hr, exBind_error] at h; exact Except.noConfusion h
  | ok resp =>
      rw [hr, exBind_ok] at h
      injection h with h
      exact h ▸ rfl

theorem subagentStop_keys (input : List (String × JValue)) (session_id : JValue)
    (st : StoreState) (now : Nat) (transcripts : List (String × TranscriptLines))
    (us : List (String × JValue)) (st' : StoreState)
    (h : subagentStop input session_id st now transcripts = .ok (us, st')) :
    keysAvoidCommon us = true := by
  unfold subagentStop at h
  dsimp only at h
  cases hr : get_last_assistant_message transcripts
      (pyOr (pyGet input "agent_transcript_path" JValue.null)
        (pyGet input "transcript_path" (.str ""))) with
  | error e => rw [hr, exBind_error] at h; exact Except.noConfusion h
  | ok resp =>
      rw [hr, exBind_ok] at h
      cases hl : lookupAgentJ st (pyGet input "agent_id" JValue.null) with
      | error e => rw [hl, exBind_error] at h; exact Except.noConfusion h
      | ok info =>
          rw [hl, exBind_ok] at h
          cases info with
          | some r =>
              injection h with h
              rw [show us = _ from (congrArg Prod.fst h).symm]
              rfl
          | none =>
              cases hp : get_and_clear_pending_task st (pyStr session_id) with
              | mk info2 st1 =>
                  rw [hp] at h
                  cases info2 with
                  | some p =>
                      rw [exBind_pair_fst _ _ _ _ _ h]
                      rfl
                  | none =>
                      injection h with h
                      rw [show us = _ from (congrArg Prod.fst h).symm]
                      rfl

theorem miscUpdates_keys (event : JValue) (input : List (String × JValue)) :
    keysAvoidCommon (miscUpdates event input) = true := by
  unfold miscUpdates
  rw [keysAvoidCommon_append, keysAvoidCommon_append, keysAvoidCommon_append]
  repeat' split
  all_goals rfl

theorem iteStagePair_keys (c : Prop) [Decidable c]
    (x : Except Unit (List (String × JValue) × StoreState)) (s : StoreState)
    (r : List (String × JValue) × StoreState)
    (hx : ∀ us st', x = .ok (us, st') → keysAvoidCommon us = true)
    (h : (if c then x else .ok ([], s)) = .ok r) : keysAvoidCommon r.1 = true := by
  split at h
  · exact hx r.1 r.2 (by rw [h])
  · injection h with h
    rw [← h]
    rfl

theorem iteStageList_keys (c : Prop) [Decidable c]
    (x : Except Unit (List (String × JValue)))
    (r : List (String × JValue))
    (hx : ∀ us, x = .ok us → keysAvoidCommon us = true)
    (h : (if c then x else .ok []) = .ok r) : keysAvoidCommon r = true := by
  split at h
  · exact hx r h
  · injection h with h
    rw [← h]
    rfl

theorem postStage_keys (event : JValue) (input : List (String × JValue))
    (tool_name tool_input : JValue) (st1 : StoreState) (now : Nat)
    (r : List (String × JValue) × StoreState)
    (h : postStage event input tool_name tool_input st1 now = .ok r) :
    keysAvoidCommon r.1 = true := by
  unfold postStage at h
  exact iteStagePair_keys _ _ _ _
    (fun a b hh => postToolUse_keys _ _ _ _ _ a b hh) h

theorem stopStage_keys (event : JValue) (input : List (String × JValue))
    (transcripts : List (String × TranscriptLines)) (r : List (String × JValue))
    (h : stopStage event input transcripts = .ok r) :
    keysAvoidCommon r = true := by
  unfold stopStage at h
  exact iteStageList_keys _ _ _ (fun a hh => stopUpdates_keys _ _ a hh) h

theorem subagentStage_keys (event : JValue) (input : List (String × JValue))
    (session_id : JValue) (st2 : StoreState) (now : Nat)
    (transcripts : List (String × TranscriptLines))
    (r : List (String × JValue) × StoreState)
    (h : subagentStage event input session_id st2 now transcripts = .ok r) :
    keysAvoidCommon r.1 = true := by
  unfold subagentStage at h
  exact iteStagePair_keys _ _ _ _
    (fun a b hh => subagentStop_keys _ _ _ _ _ a b hh) h

theorem eventEffects_keys (input : List (String × JValue)) (now : Nat)
    (st : StoreState) (transcripts : List (String × TranscriptLines))
    (us : List (String × JValue)) (st2 : StoreState)
    (h : eventEffects input now st transcripts = .ok (us, st2)) :
    keysAvoidCommon us = true := by
  unfold eventEffects at h
  dsimp only at h
  cases h1 : preToolStage (pyGet input "hook_event_name" (JValue.str "unknown"))
      (pyGet input "tool_name" JValue.null)
      (pyOr (pyGet input "tool_input" JValue.null) (JValue.obj []))
      (pyGet input "session_id" (JValue.str "unknown")) st now with
  | error e => rw [h1, exBind_error] at h; exact Except.noConfusion h
  | ok r1 =>
      rw [h1, exBind_ok] at h
      cases h2 : postStage (pyGet input "hook_event_name" (JValue.str "unknown")) input
          (pyGet input "tool_name" JValue.null)
          (pyOr (pyGet input "tool_input" JValue.null) (JValue.obj [])) r1.2 now with
      | error e => rw [h2, exBind_error] at h; exact Except.noConfusion h
      | ok r2 =>
          rw [h2, exBind_ok] at h
          cases h3 : stopStage (pyGet input "hook_event_name" (JValue.str "unknown"))
              input transcripts with
          | error e => rw [h3, exBind_error] at h; exact Except.noConfusion h
          | ok us3 =>
              rw [h3, exBind_ok] at h
              cases h4 : subagentStage (pyGet input "hook_event_name" (JValue.str "unknown"))
                  input (pyGet input "session_id" (JValue.str "unknown")) r2.2 now
                  transcripts with
              | error e => rw [h4, exBind_error] at h; exact Except.noConfusion h
              | ok r4 =>
                  rw [h4, exBind_ok] at h
                  injection h with h
                  have k1 : keysAvoidCommon r1.1 = true :=
                    preToolStage_keys _ _ _ _ _ _ r1.1 r1.2 h1
                  have k2 : keysAvoidCommon r2.1 = true :=
                    postStage_keys _ _ _ _ _ _ _ h2
                  have k3 : keysAvoidCommon us3 = true :=
                    stopStage_keys _ _ _ _ h3
                  have k4 : keysAvoidCommon r4.1 = true :=
                    subagentStage_keys _ _ _ _ _ _ _ h4
                  rw [show us = _ from (congrArg Prod.fst h).symm]
                  rw [keysAvoidCommon_append, keysAvoidCommon_append,
                    keysAvoidCommon_append, keysAvoidCommon_append]
                  rw [k1, k2, k3, k4, miscUpdates_keys]
                  rfl

theorem processEvent_parts (input : List (String × JValue)) (ts : String) (now : Nat)
    (st : StoreState) (transcripts : List (String × TranscriptLines))
    (e : LogEntry) (st2 : StoreState)
    (h : processEvent input ts now st transcripts = .ok (e, st2)) :
    ∃ us, eventEffects input now st transcripts = Except.ok (us, st2) ∧
      e = applyUpds (initialEntry input ts) us := by
  unfold processEvent at h
  cases he : eventEffects input now st transcripts with
  | error err => rw [he] at h; simp [Except.map] at h
  | ok r =>
      obtain ⟨ra, rb⟩ := r
      rw [he] at h
      simp only [Except.map] at h
      injection h with h
      have hfst : e = applyUpds (initialEntry input ts) ra := (congrArg Prod.fst h).symm
      have hsnd : rb = st2 := congrArg Prod.snd h
      subst hsnd
      exact ⟨ra, rfl, hfst⟩

/-- C3 counterexample: the empty input event persists a record whose
tool_input field is the empty dict, an empty-valued key the filter does
not drop (it drops only None). -/
theorem persisted_record_keeps_empty_values :
    ¬ ∀ (input : List (String × JValue)) (ts : String) (now : Nat) (st : StoreState)
        (transcripts : List (String × TranscriptLines)) (rec : LogEntry),
      persistedRecord input ts now st transcripts = some rec →
      ∀ kv ∈ rec, isEmptyVal kv.2 = false := by
  intro h
  have h2 := h [] "T" 0 [] []
      [("ts", JValue.str "T"), ("session_id", JValue.str "unknown"),
       ("event", JValue.str "unknown"), ("tool_input", JValue.obj [])] rfl
      ("tool_input", JValue.obj [])
      (List.Mem.tail _ (List.Mem.tail _ (List.Mem.tail _ (List.Mem.head _))))
  exact Bool.noConfusion h2

/-- C3 amended: the persisted record contains no None-valued key (the
filter of line 314 drops exactly those); empty values such as an empty
dict, list or string may remain. -/
theorem persisted_record_no_null (input : List (String × JValue)) (ts : String)
    (now : Nat) (st : StoreState) (transcripts : List (String × TranscriptLines))
    (rec : LogEntry) (h : persistedRecord input ts now st transcripts = some rec) :
    ∀ kv ∈ rec, kv.2 ≠ JValue.null := by
  unfold persistedRecord at h
  cases hp : processEvent input ts now st transcripts with
  | error e => rw [hp] at h; exact Option.noConfusion h
  | ok r =>
      rw [hp] at h
      injection h with h
      subst h
      exact filterNone_no_null r.1

/-- C3 witness: the no-null property evaluated on the record of the empty
input event. -/
theorem persisted_record_no_null_witness :
    (("ts", JValue.str "T") : String × JValue).2 ≠ JValue.null :=
  persisted_record_no_null [] "T" 0 [] []
    [("ts", JValue.str "T"), ("session_id", JValue.str "unknown"),
     ("event", JValue.str "unknown"), ("tool_input", JValue.obj [])] rfl
    ("ts", JValue.str "T") (List.Mem.head _)

/-- C9 counterexample: an input carrying an explicit null session_id makes
dict.get return None despite the default, so the persisted record omits
the session_id key entirely. -/
theorem persisted_record_drops_null_session :
    ¬ ∀ (input : List (String × JValue)) (ts : String) (now : Nat) (st : StoreState)
        (transcripts : List (String × TranscriptLines)) (rec : LogEntry),
      persistedRecord input ts now st transcripts = some rec →
      (dictGet rec "ts").isSome = true ∧ (dictGet rec "session_id").isSome = true ∧
        (dictGet rec "event").isSome = true := by
  intro h
  have h2 := (h [("session_id", JValue.null)] "T" 0 [] []
      [("ts", JValue.str "T"), ("event", JValue.str "unknown"),
       ("tool_input", JValue.obj [])] rfl).2.1
  exact Bool.noConfusion h2

/-- C9 amended: every persisted record contains ts; it contains
session_id and event with the input value (defaulting to the string
unknown when the field is absent) whenever that value is not null; a field
explicitly null in the input is dropped by the None filter. -/
theorem persisted_record_common_fields (input : List (String × JValue)) (ts : String)
    (now : Nat) (st : StoreState) (transcripts : List (String × TranscriptLines))
    (rec : LogEntry) (h : persistedRecord input ts now st transcripts = some rec) :
    dictGet rec "ts" = some (JValue.str ts) ∧
    (pyGet input "session_id" (JValue.str "unknown") ≠ JValue.null →
      dictGet rec "session_id" = some (pyGet input "session_id" (JValue.str "unknown"))) ∧
    (pyGet input "hook_event_name" (JValue.str "unknown") ≠ JValue.null →
      dictGet rec "event" = some (pyGet input "hook_event_name" (JValue.str "unknown"))) := by
  unfold persistedRecord at h
  cases hp : processEvent input ts now st transcripts with
  | error e => rw [hp] at h; exact Option.noConfusion h
  | ok r =>
      obtain ⟨e0, st2⟩ := r
      rw [hp] at h
      injection h with h
      obtain ⟨us, heff, he⟩ := processEvent_parts input ts now st transcripts e0 st2 hp
      have hkeys := keysAvoidCommon_spec us
        (eventEffects_keys input now st transcripts us st2 heff)
      subst h
      rw [he]
      refine ⟨?_, ?_, ?_⟩
      · apply dictGet_filterNone _ _ _ (fun hh => JValue.noConfusion hh)
        rw [dictGet_applyUpds us _ "ts" (fun kv hkv => (hkeys kv hkv).1)]
        rfl
      · intro hs
        apply dictGet_filterNone _ _ _ hs
        rw [dictGet_applyUpds us _ "session_id" (fun kv hkv => (hkeys kv hkv).2.1)]
        rfl
      · intro hs
        apply dictGet_filterNone _ _ _ hs
        rw [dictGet_applyUpds us _ "event" (fun kv hkv => (hkeys kv hkv).2.2)]
        rfl

/-- C9 witness: the common fields of the record of the empty input event. -/
theorem persisted_record_common_fields_witness :
    dictGet [("ts", JValue.str "T"), ("session_id", JValue.str "unknown"),
        ("event", JValue.str "unknown"), ("tool_input", JValue.obj [])] "ts"
      = some (JValue.str "T") ∧
    (pyGet [] "session_id" (JValue.str "unknown") ≠ JValue.null →
      dictGet [("ts", JValue.str "T"), ("session_id", JValue.str "unknown"),
          ("event", JValue.str "unknown"), ("tool_input", JValue.obj [])] "session_id"
        = some (pyGet [] "session_id" (JValue.str "unknown"))) ∧
    (pyGet [] "hook_event_name" (JValue.str "unknown") ≠ JValue.null →
      dictGet [("ts", JValue.str "T"), ("session_id", JValue.str "unknown"),
          ("event", JValue.str "unknown"), ("tool_input", JValue.obj [])] "event"
        = some (pyGet [] "hook_event_name" (JValue.str "unknown"))) :=
  persisted_record_common_fields [] "T" 0 [] []
    [("ts", JValue.str "T"), ("session_id", JValue.str "unknown"),
     ("event", JValue.str "unknown"), ("tool_input", JValue.obj [])] rfl

theorem subagentStop_eval (S I : String) (st : StoreState) (M2 : AgentRecord) (now : Nat)
    (hI : I ≠ "") (hpend : dictGet st (pendingKey S) = some M2)
    (hfresh : dictGet st I = none) :
    subagentStop (subagentStopInput S I) (JValue.str S) st now [] =
      Except.ok ([("assistant_response", JValue.null), ("agent_id", JValue.str I),
          ("stop_hook_active", JValue.null), ("subagent_type", M2.subagent_type),
          ("subagent_model", M2.model), ("subagent_description", M2.description)],
        register_agent (dictRemove st (pendingKey S)) I
          M2.subagent_type M2.model M2.description now) := by
  have hIt : jTruthy (JValue.str I) = true := by simp [jTruthy, hI]
  have hlook : lookupAgentJ st (JValue.str I) = Except.ok (dictGet st I) := by
    simp [lookupAgentJ, hIt, lookup_agent, hI]
  have hreg : registerAgentJ (dictRemove st (pendingKey S)) (JValue.str I)
      M2.subagent_type M2.model M2.description now
      = Except.ok (register_agent (dictRemove st (pendingKey S)) I
          M2.subagent_type M2.model M2.description now) := by
    simp [registerAgentJ, hIt]
  have hclear : get_and_clear_pending_task st S = (some M2, dictRemove st (pendingKey S)) := by
    unfold get_and_clear_pending_task
    rw [hpend]
  unfold subagentStop
  dsimp only
  rw [show pyOr (pyGet (subagentStopInput S I) "agent_transcript_path" JValue.null)
      (pyGet (subagentStopInput S I) "transcript_path" (JValue.str ""))
      = JValue.str "" from rfl]
  rw [show get_last_assistant_message [] (JValue.str "") = Except.ok "" from rfl]
  rw [exBind_ok]
  rw [show pyGet (subagentStopInput S I) "agent_id" JValue.null = JValue.str I from rfl]
  rw [hlook, hfresh, exBind_ok]
  rw [show pyStr (JValue.str S) = S from rfl]
  rw [hclear]
  simp only [hreg, exBind_ok]
  rfl

theorem eventEffects_subagentStop_eval (S I : String) (st : StoreState)
    (M2 : AgentRecord) (now : Nat) (hI : I ≠ "")
    (hpend : dictGet st (pendingKey S) = some M2) (hfresh : dictGet st I = none) :
    eventEffects (subagentStopInput S I) now st [] =
      Except.ok ([("assistant_response", JValue.null), ("agent_id", JValue.str I),
          ("stop_hook_active", JValue.null), ("subagent_type", M2.subagent_type),
          ("subagent_model", M2.model), ("subagent_description", M2.description)],
        register_agent (dictRemove st (pendingKey S)) I
          M2.subagent_type M2.model M2.description now) := by
  unfold eventEffects
  dsimp only
  rw [show preToolStage (pyGet (subagentStopInput S I) "hook_event_name" (JValue.str "unknown"))
      (pyGet (subagentStopInput S I) "tool_name" JValue.null)
      (pyOr (pyGet (subagentStopInput S I) "tool_input" JValue.null) (JValue.obj []))
      (pyGet (subagentStopInput S I) "session_id" (JValue.str "unknown")) st now
      = Except.ok ([], st) from rfl]
  simp only [exBind_ok]
  rw [show postStage (pyGet (subagentStopInput S I) "hook_event_name" (JValue.str "unknown"))
      (subagentStopInput S I) (pyGet (subagentStopInput S I) "tool_name" JValue.null)
      (pyOr (pyGet (subagentStopInput S I) "tool_input" JValue.null) (JValue.obj []))
      (([], st) : List (String × JValue) × StoreState).2 now
      = Except.ok ([], st) from rfl]
  simp only [exBind_ok]
  rw [show stopStage (pyGet (subagentStopInput S I) "hook_event_name" (JValue.str "unknown"))
      (subagentStopInput S I) [] = Except.ok [] from rfl]
  simp only [exBind_ok]
  rw [show subagentStage (pyGet (subagentStopInput S I) "hook_event_name" (JValue.str "unknown"))
      (subagentStopInput S I) (pyGet (subagentStopInput S I) "session_id" (JValue.str "unknown"))
      (([], st) : List (String × JValue) × StoreState).2 now []
      = subagentStop (subagentStopInput S I) (JValue.str S) st now [] from rfl]
  rw [subagentStop_eval S I st M2 now hI hpend hfresh]
  simp only [exBind_ok]
  rfl

/-- C2 counterexample: a SubagentStop event whose agent_id is the empty
string consumes the pending entry but registers nothing, because
register_agent silently returns on a falsy id; the resulting store holds
no record for I. -/
theorem subagentStop_empty_id_registers_nothing :
    ¬ ∀ (S I ts : String) (now : Nat) (st : StoreState) (M2 : AgentRecord),
      dictGet st (pendingKey S) = some M2 →
      dictGet st I = none →
      (processOk (subagentStopInput S I) ts now st [] = true ∧
       dictGet (storeAfter (subagentStopInput S I) ts now st []) I
         = some ⟨M2.subagent_type, M2.model, M2.description, now⟩ ∧
       (get_and_clear_pending_task (storeAfter (subagentStopInput S I) ts now st []) S).1
         = none) := by
  intro h
  have h2 := (h "s" "" "T" 5 [(pendingKey "s", sampleRecord)] sampleRecord rfl rfl).2.1
  rw [show storeAfter (subagentStopInput "s" "") "T" 5
      [(pendingKey "s", sampleRecord)] [] = [] from rfl] at h2
  exact Option.noConfusion h2

/-- C2 amended: for every session S with a pending entry M2 and every
nonempty operation id I not in the store (timestamps below the monotone
clock), the SubagentStop event resolves M2 via the pending fallback,
registers I with M2 and the current timestamp, and a subsequent
takeAndClearPending(S) on the resulting store returns empty. -/
theorem subagentStop_pending_fallback (S I ts : String) (now : Nat) (st : StoreState)
    (M2 : AgentRecord) (hI : I ≠ "") (hnd : (st.map Prod.fst).Nodup)
    (hpend : dictGet st (pendingKey S) = some M2)
    (hfresh : dictGet st I = none)
    (hts : ∀ e ∈ st, e.2.registered_at ≤ now) :
    processOk (subagentStopInput S I) ts now st [] = true ∧
    dictGet (storeAfter (subagentStopInput S I) ts now st []) I
      = some ⟨M2.subagent_type, M2.model, M2.description, now⟩ ∧
    (get_and_clear_pending_task (storeAfter (subagentStopInput S I) ts now st []) S).1
      = none := by
  have heff := eventEffects_subagentStop_eval S I st M2 now hI hpend hfresh
  have hproc : processEvent (subagentStopInput S I) ts now st [] =
      Except.ok (applyUpds (initialEntry (subagentStopInput S I) ts)
          [("assistant_response", JValue.null), ("agent_id", JValue.str I),
           ("stop_hook_active", JValue.null), ("subagent_type", M2.subagent_type),
           ("subagent_model", M2.model), ("subagent_description", M2.description)],
        register_agent (dictRemove st (pendingKey S)) I
          M2.subagent_type M2.model M2.description now) := by
    unfold processEvent
    rw [heff]
    rfl
  have hsa : storeAfter (subagentStopInput S I) ts now st []
      = register_agent (dictRemove st (pendingKey S)) I
          M2.subagent_type M2.model M2.description now := by
    unfold storeAfter
    rw [hproc]
  refine ⟨?_, ?_, ?_⟩
  · unfold processOk
    rw [hproc]
  · rw [hsa]
    apply register_agent_fresh_lookup _ _ _ _ _ _ hI
    · rw [dictGet_eq_none_iff]
      intro e he
      exact (dictGet_eq_none_iff st I).mp hfresh e (mem_dictRemove _ _ e he)
    · intro e he
      exact hts e (mem_dictRemove _ _ e he)
  · rw [hsa]
    have hpk : dictGet (register_agent (dictRemove st (pendingKey S)) I
        M2.subagent_type M2.model M2.description now) (pendingKey S) = none := by
      apply dictGet_register_agent_other
      · intro hcol
        rw [hcol, hfresh] at hpend
        exact Option.noConfusion hpend
      · exact dictGet_dictRemove_self st (pendingKey S) hnd
    unfold get_and_clear_pending_task
    rw [hpk]

/-- C2 witness: the fallback at a concrete store and id. -/
theorem subagentStop_pending_fallback_witness :
    processOk (subagentStopInput "s" "i") "T" 5
      [(pendingKey "s", sampleRecord)] [] = true ∧
    dictGet (storeAfter (subagentStopInput "s" "i") "T" 5
        [(pendingKey "s", sampleRecord)] []) "i"
      = some ⟨sampleRecord.subagent_type, sampleRecord.model,
          sampleRecord.description, 5⟩ ∧
    (get_and_clear_pending_task (storeAfter (subagentStopInput "s" "i") "T" 5
        [(pendingKey "s", sampleRecord)] []) "s").1 = none :=
  subagentStop_pending_fallback "s" "i" "T" 5 [(pendingKey "s", sampleRecord)]
    sampleRecord (by decide) (by simp) rfl rfl (by decide)

/-- C4: a well-formed event with an IOError on the session-log append.
The open/write at lines 317-319 is outside every try block, so the
exception propagates and the process does not exit 0. -/
theorem append_io_error_raises :
    runMain (some []) "T" 0 [] ⟨false, [], [], none⟩ ⟨true⟩
      = (Outcome.raised, ⟨true, [], [], none⟩) := rfl

/-- C5 counterexample: with the log directory initially missing and
malformed stdin, the run still creates the directory (mkdir runs before
the decode), so the filesystem is not unchanged. -/
theorem malformed_stdin_not_side_effect_free :
    ¬ ∀ (ts : String) (now : Nat) (transcripts : List (String × TranscriptLines))
        (fs : FSState) (f : Faults),
      runMain none ts now transcripts fs f = (Outcome.exited 0, fs) := by
  intro h
  have h2 := h "T" 0 [] ⟨false, [], [], none⟩ ⟨false⟩
  have h3 : true = false := congrArg (fun p => (Prod.snd p).logDirExists) h2
  exact Bool.noConfusion h3

/-- C5 amended: on malformed or absent stdin the program exits 0 with no
output, no record appended, the store and the latest alias untouched; the
only side effect is that the log directory is created (mkdir with
exist_ok runs before the decode). -/
theorem malformed_stdin_clean_exit_creates_dir (ts : String) (now : Nat)
    (transcripts : List (String × TranscriptLines)) (fs : FSState) (f : Faults) :
    runMain none ts now transcripts fs f
      = (Outcome.exited 0, { fs with logDirExists := true }) := rfl

end HookLogger
